import Mathlib

/-!
Verification development for the Dynamic Course Generator repository.

The backend's algorithmic core is embedded shallowly in Lean:

* `calculate_new_difficulty` from `quiz_service.py` as printed in
  `DOCUMENTATION.md` §11.1;
* `grade_quiz` from `DOCUMENTATION.md` §12.3;
* `calculate_mastery_level` from `DOCUMENTATION.md` §11.3;
* frontend constants (`ProgressBar.jsx`, `MasteryIndicator.jsx`,
  `ProgressPage`, the feedback option lists) transcribed from the JSX
  sources;
* backend pieces whose Python source is not in the repository snapshot
  (the smoothed-score update, the retry orchestrator, the JSON extraction
  stage, the schema validator, the feedback-type check) are modelled from
  the specification and carry a doc comment saying so.

Scores are represented as rationals: every score the system produces is
`100 * correct / total`, an exact rational, and all threshold comparisons
(`>= 85`, `< 50`, `>= 70`) are exact at these values.
-/

/-- `Difficulty` enumeration from `models.py` (`DOCUMENTATION.md` §4.2.2):
`easy`, `medium`, `hard`. -/
inductive Difficulty where
  | easy
  | medium
  | hard
deriving DecidableEq, Repr

/-- `difficulty_order = [EASY, MEDIUM, HARD]` from `calculate_new_difficulty`
(`DOCUMENTATION.md` §11.1). -/
def difficulty_order : List Difficulty := [.easy, .medium, .hard]

/-- `difficulty_order.index(current_difficulty)` for the three members. -/
def difficultyIndex : Difficulty → Nat
  | .easy => 0
  | .medium => 1
  | .hard => 2

/-- `calculate_new_difficulty(current_difficulty, score)` transcribed from
`DOCUMENTATION.md` §11.1: advance one tier when `score >= 85.0` and not
already at the top, regress one tier when `score < 50.0` and not already at
the bottom, otherwise unchanged. -/
def calculate_new_difficulty (current_difficulty : Difficulty) (score : ℚ) :
    Difficulty :=
  let current_index := difficultyIndex current_difficulty
  if (85 : ℚ) ≤ score then
    if current_index < 2 then
      (difficulty_order.getD (current_index + 1) current_difficulty)
    else current_difficulty
  else if score < (50 : ℚ) then
    if 0 < current_index then
      (difficulty_order.getD (current_index - 1) current_difficulty)
    else current_difficulty
  else current_difficulty

/-- `BloomLevel` enumeration from `models.py` (`DOCUMENTATION.md` §4.2.2):
the six cognitive levels in order. -/
inductive BloomLevel where
  | remember
  | understand
  | apply
  | analyze
  | evaluate
  | create
deriving DecidableEq, Repr

/-- The ordered list of the six Bloom levels (`DOCUMENTATION.md` §10.1). -/
def bloom_order : List BloomLevel :=
  [.remember, .understand, .apply, .analyze, .evaluate, .create]

/-- Position of a Bloom level in `bloom_order`. -/
def bloomIndex : BloomLevel → Nat
  | .remember => 0
  | .understand => 1
  | .apply => 2
  | .analyze => 3
  | .evaluate => 4
  | .create => 5

/-- Modelled from the spec: `calculate_new_bloom_level` (its body lives in
`quiz_service.py`, which is not in the repository snapshot; only its
docstring appears in `DOCUMENTATION.md` §4.2.4). Per spec §4.6 and
`DOCUMENTATION.md` §10.4 it applies the identical threshold policy and
single-step rule as `calculate_new_difficulty`, on the six-level order:
score ≥ 85 moves up one level, score < 50 moves down one level, otherwise
the level is unchanged. -/
def calculate_new_bloom_level (current_bloom : BloomLevel) (score : ℚ) :
    BloomLevel :=
  let current_index := bloomIndex current_bloom
  if (85 : ℚ) ≤ score then
    if current_index < 5 then
      (bloom_order.getD (current_index + 1) current_bloom)
    else current_bloom
  else if score < (50 : ℚ) then
    if 0 < current_index then
      (bloom_order.getD (current_index - 1) current_bloom)
    else current_bloom
  else current_bloom

lemma calculate_new_difficulty_up {s : ℚ} (h : (85 : ℚ) ≤ s) :
    ∀ d, calculate_new_difficulty d s =
      match d with
      | .easy => .medium
      | .medium => .hard
      | .hard => .hard := by
  intro d
  cases d <;>
    simp [calculate_new_difficulty, difficultyIndex, difficulty_order, h]

lemma calculate_new_difficulty_down {s : ℚ} (h : s < (50 : ℚ)) :
    ∀ d, calculate_new_difficulty d s =
      match d with
      | .easy => .easy
      | .medium => .easy
      | .hard => .medium := by
  intro d
  have h85 : ¬ ((85 : ℚ) ≤ s) := by linarith
  cases d <;>
    simp [calculate_new_difficulty, difficultyIndex, difficulty_order, h, h85]

lemma calculate_new_difficulty_stay {s : ℚ} (h1 : ¬ ((85 : ℚ) ≤ s))
    (h2 : ¬ (s < (50 : ℚ))) : ∀ d, calculate_new_difficulty d s = d := by
  intro d
  cases d <;>
    simp [calculate_new_difficulty, difficultyIndex, difficulty_order, h1, h2]

lemma calculate_new_bloom_level_up {s : ℚ} (h : (85 : ℚ) ≤ s) :
    ∀ c, calculate_new_bloom_level c s =
      match c with
      | .remember => .understand
      | .understand => .apply
      | .apply => .analyze
      | .analyze => .evaluate
      | .evaluate => .create
      | .create => .create := by
  intro c
  cases c <;>
    simp [calculate_new_bloom_level, bloomIndex, bloom_order, h]

lemma calculate_new_bloom_level_down {s : ℚ} (h : s < (50 : ℚ)) :
    ∀ c, calculate_new_bloom_level c s =
      match c with
      | .remember => .remember
      | .understand => .remember
      | .apply => .understand
      | .analyze => .apply
      | .evaluate => .analyze
      | .create => .evaluate := by
  intro c
  have h85 : ¬ ((85 : ℚ) ≤ s) := by linarith
  cases c <;>
    simp [calculate_new_bloom_level, bloomIndex, bloom_order, h, h85]

lemma calculate_new_bloom_level_stay {s : ℚ} (h1 : ¬ ((85 : ℚ) ≤ s))
    (h2 : ¬ (s < (50 : ℚ))) : ∀ c, calculate_new_bloom_level c s = c := by
  intro c
  cases c <;>
    simp [calculate_new_bloom_level, bloomIndex, bloom_order, h1, h2]

/-- C1: for every graded attempt with raw score `s`, current difficulty tier
`d` and current Bloom level `c`: if `s ≥ 85` the new tier (and,
independently, the new level) is exactly one step above the old one, or
unchanged if already at the top; if `s < 50` it is exactly one step below,
or unchanged if already at the bottom; otherwise it is unchanged. Boundary
behavior: `s = 50` does not regress, `s = 85` does advance; no transition
ever skips a tier (indices move by at most one). Quantified over all three
difficulty values and all six Bloom levels. -/
theorem difficulty_bloom_single_step_transitions
    (d : Difficulty) (c : BloomLevel) (s : ℚ) :
    ((85 : ℚ) ≤ s →
      (difficultyIndex (calculate_new_difficulty d s) = difficultyIndex d + 1
        ∨ (d = .hard ∧ calculate_new_difficulty d s = d)) ∧
      (bloomIndex (calculate_new_bloom_level c s) = bloomIndex c + 1
        ∨ (c = .create ∧ calculate_new_bloom_level c s = c))) ∧
    (s < (50 : ℚ) →
      (difficultyIndex (calculate_new_difficulty d s) + 1 = difficultyIndex d
        ∨ (d = .easy ∧ calculate_new_difficulty d s = d)) ∧
      (bloomIndex (calculate_new_bloom_level c s) + 1 = bloomIndex c
        ∨ (c = .remember ∧ calculate_new_bloom_level c s = c))) ∧
    ((50 : ℚ) ≤ s → s < (85 : ℚ) →
      calculate_new_difficulty d s = d ∧ calculate_new_bloom_level c s = c) ∧
    (difficultyIndex (calculate_new_difficulty d s) ≤ difficultyIndex d + 1 ∧
      difficultyIndex d ≤ difficultyIndex (calculate_new_difficulty d s) + 1) ∧
    (bloomIndex (calculate_new_bloom_level c s) ≤ bloomIndex c + 1 ∧
      bloomIndex c ≤ bloomIndex (calculate_new_bloom_level c s) + 1) := by
  refine ⟨?_, ?_, ?_, ?_, ?_⟩
  · intro h
    rw [calculate_new_difficulty_up h, calculate_new_bloom_level_up h]
    cases d <;> cases c <;> simp [difficultyIndex, bloomIndex]
  · intro h
    rw [calculate_new_difficulty_down h, calculate_new_bloom_level_down h]
    cases d <;> cases c <;> simp [difficultyIndex, bloomIndex]
  · intro h1 h2
    have h85 : ¬ ((85 : ℚ) ≤ s) := by linarith
    have h50 : ¬ (s < (50 : ℚ)) := by linarith
    exact ⟨calculate_new_difficulty_stay h85 h50 d,
      calculate_new_bloom_level_stay h85 h50 c⟩
  · rcases em ((85 : ℚ) ≤ s) with h | h
    · rw [calculate_new_difficulty_up h]
      cases d <;> simp [difficultyIndex]
    · rcases em (s < (50 : ℚ)) with h2 | h2
      · rw [calculate_new_difficulty_down h2]
        cases d <;> simp [difficultyIndex]
      · rw [calculate_new_difficulty_stay h h2]
        omega
  · rcases em ((85 : ℚ) ≤ s) with h | h
    · rw [calculate_new_bloom_level_up h]
      cases c <;> simp [bloomIndex]
    · rcases em (s < (50 : ℚ)) with h2 | h2
      · rw [calculate_new_bloom_level_down h2]
        cases c <;> simp [bloomIndex]
      · rw [calculate_new_bloom_level_stay h h2]
        omega

/-- Witness for C1: a learner at medium difficulty and Understand level who
scores 90 advances to hard and Apply; one who scores 40 regresses; a score
of exactly 50 leaves both unchanged. -/
theorem difficulty_bloom_single_step_transitions_witness :
    calculate_new_difficulty .medium 90 = .hard ∧
    calculate_new_bloom_level .understand 90 = .apply ∧
    calculate_new_difficulty .medium 50 = .medium ∧
    calculate_new_bloom_level .understand 50 = .understand := by
  have h90 := difficulty_bloom_single_step_transitions .medium .understand 90
  have h50 := difficulty_bloom_single_step_transitions .medium .understand 50
  have h1 := (h90.1 (by norm_num)).1
  have h2 := (h90.1 (by norm_num)).2
  have h3 := h50.2.2.1 (by norm_num) (by norm_num)
  refine ⟨?_, ?_, h3.1, h3.2⟩
  · rcases h1 with h | h
    · cases hcd : calculate_new_difficulty Difficulty.medium 90 <;>
        simp_all [difficultyIndex]
    · simp_all
  · rcases h2 with h | h
    · cases hcb : calculate_new_bloom_level BloomLevel.understand 90 <;>
        simp_all [bloomIndex]
    · simp_all

/-- `QuizQuestion` fields per `models.py` and the course schema
(`DOCUMENTATION.md` §6.2, §12.2): identifier, prompt, four options, the
designated correct option, difficulty and Bloom labels, explanation. -/
structure QuizQuestion where
  question_id : String
  question : String
  options : List String
  correct_answer : String
  difficulty : String
  bloom_level : String
  explanation : String
deriving DecidableEq, Repr

/-- Python's `answers.get(question_id, "")` over the submitted answer dict,
with the dict represented as an association list. -/
def dictGet (answers : List (String × String)) (key : String) : String :=
  match answers.find? (fun p => p.1 == key) with
  | some p => p.2
  | none => ""

/-- One entry of the `feedback` list built by `grade_quiz`
(`DOCUMENTATION.md` §12.3). -/
structure AnswerFeedback where
  question_id : String
  user_answer : String
  correct_answer : String
  is_correct : Bool
  explanation : String
deriving DecidableEq, Repr

/-- The `(score, correct_count, total, feedback)` tuple `grade_quiz`
returns. -/
structure GradeResult where
  score : ℚ
  correct_count : Nat
  total : Nat
  feedback : List AnswerFeedback
deriving DecidableEq, Repr

/-- The loop body of `grade_quiz` for one question: look up the user's
answer with default `""`, compare for exact string equality, build the
feedback entry. -/
def gradeEntry (answers : List (String × String)) (q : QuizQuestion) :
    AnswerFeedback :=
  let user_answer := dictGet answers q.question_id
  { question_id := q.question_id
    user_answer := user_answer
    correct_answer := q.correct_answer
    is_correct := user_answer == q.correct_answer
    explanation := q.explanation }

/-- Accumulator step of the `grade_quiz` loop: bump `correct_count` when the
entry is correct and append the feedback entry. -/
def gradeStep (answers : List (String × String))
    (acc : Nat × List AnswerFeedback) (q : QuizQuestion) :
    Nat × List AnswerFeedback :=
  let fb := gradeEntry answers q
  (acc.1 + (if fb.is_correct then 1 else 0), acc.2 ++ [fb])

/-- `grade_quiz(questions, answers)` transcribed from `DOCUMENTATION.md`
§12.3. Answers are looked up by question id with default `""`, a question
is correct iff the looked-up string equals `correct_answer` exactly, and
`score = (correct_count / len(questions)) * 100`. Python's
`ZeroDivisionError` on an empty question list is the only error path. -/
def grade_quiz (questions : List QuizQuestion)
    (answers : List (String × String)) : Except String GradeResult :=
  let folded := questions.foldl (gradeStep answers) (0, [])
  if questions.length = 0 then
    Except.error "ZeroDivisionError: division by zero"
  else
    Except.ok
      { score := ((folded.1 : ℚ) / (questions.length : ℚ)) * 100
        correct_count := folded.1
        total := questions.length
        feedback := folded.2 }

/-- Modelled from the spec: `PASS_THRESHOLD = 70.0` is in
`DOCUMENTATION.md` §4.2.4's constants, and spec §4.6 states passed iff
score ≥ 70; the `process_quiz_submission` body that applies it is not in
the repository snapshot. -/
def PASS_THRESHOLD : ℚ := 70

/-- Modelled from the spec: `passed` iff `score ≥ PASS_THRESHOLD`. -/
def quizPassed (score : ℚ) : Bool := decide (PASS_THRESHOLD ≤ score)

lemma grade_quiz_foldl (answers : List (String × String)) :
    ∀ (questions : List QuizQuestion) (n : Nat) (fb : List AnswerFeedback),
      questions.foldl (gradeStep answers) (n, fb) =
        (n + questions.countP
            (fun q => dictGet answers q.question_id == q.correct_answer),
          fb ++ questions.map (gradeEntry answers))
  | [], n, fb => by simp
  | q :: qs, n, fb => by
    rw [List.foldl_cons, List.countP_cons]
    show List.foldl (gradeStep answers) (gradeStep answers (n, fb) q) qs = _
    rw [grade_quiz_foldl answers qs]
    simp only [gradeStep, gradeEntry, List.map_cons, Prod.mk.injEq]
    refine ⟨by omega, by simp⟩

/-- C2: grading marks a question correct iff the submitted option string is
exactly equal to the question's designated correct option (no case
normalization, no partial credit); the score equals
`100 × correct_count / total_questions`; `passed` is true iff the score is
at least 70; and submitting the exact correct-option string for every
question yields score 100 and passed. -/
theorem grade_quiz_exact_match_scoring
    (questions : List QuizQuestion) (answers : List (String × String))
    (h : questions ≠ []) :
    ∃ r : GradeResult,
      grade_quiz questions answers = Except.ok r ∧
      r.total = questions.length ∧
      r.feedback = questions.map (gradeEntry answers) ∧
      (∀ q ∈ questions,
        ((gradeEntry answers q).is_correct = true ↔
          dictGet answers q.question_id = q.correct_answer)) ∧
      r.correct_count =
        questions.countP
          (fun q => dictGet answers q.question_id == q.correct_answer) ∧
      r.score = 100 * (r.correct_count : ℚ) / (r.total : ℚ) ∧
      (quizPassed r.score = true ↔ (70 : ℚ) ≤ r.score) ∧
      ((∀ q ∈ questions, dictGet answers q.question_id = q.correct_answer) →
        r.score = 100 ∧ quizPassed r.score = true) := by
  have hlen : questions.length ≠ 0 := by
    simpa using h
  unfold grade_quiz
  rw [grade_quiz_foldl answers questions 0 []]
  simp only [Nat.zero_add, List.nil_append, if_neg hlen]
  refine ⟨_, rfl, rfl, rfl, ?_, rfl, by push_cast; ring, ?_, ?_⟩
  · intro q _
    simp [gradeEntry]
  · simp [quizPassed, PASS_THRESHOLD]
  · intro hall
    have hcount :
        questions.countP
            (fun q => dictGet answers q.question_id == q.correct_answer) =
          questions.length := by
      rw [List.countP_eq_length]
      intro q hq
      simpa using hall q hq
    have hlenQ : ((questions.length : ℚ)) ≠ 0 := by
      exact_mod_cast hlen
    constructor
    · simp only [hcount]
      field_simp
    · simp only [hcount]
      rw [div_mul_eq_mul_div, mul_comm, mul_div_assoc, div_self hlenQ,
        mul_one]
      simp only [quizPassed, PASS_THRESHOLD, decide_eq_true_eq]
      norm_num

/-- The one-element quiz of the spec's end-to-end scenario
(`DOCUMENTATION.md` §6.2 question shape). -/
def exampleQuestion : QuizQuestion :=
  { question_id := "q1"
    question := "2+2?"
    options := ["3", "4", "5", "6"]
    correct_answer := "4"
    difficulty := "medium"
    bloom_level := "Remember"
    explanation := "Basic arithmetic" }

/-- Witness for C2 at a concrete quiz: answering the single question with
the exact correct string yields score 100 and passed. -/
theorem grade_quiz_exact_match_scoring_witness :
    Except.map GradeResult.score
        (grade_quiz [exampleQuestion] [("q1", "4")]) = Except.ok 100 ∧
    Except.map (quizPassed ∘ GradeResult.score)
        (grade_quiz [exampleQuestion] [("q1", "4")]) = Except.ok true := by
  obtain ⟨r, hok, -, -, -, -, -, -, hall⟩ :=
    grade_quiz_exact_match_scoring [exampleQuestion] [("q1", "4")]
      (by simp)
  have h100 := hall (by decide)
  rw [hok]
  simp only [Except.map, Function.comp, h100.1]
  norm_num [quizPassed, PASS_THRESHOLD]

lemma find?_filter_key (P : String × String → Bool) (key : String)
    (h : ∀ p : String × String, p.1 = key → P p = true) :
    ∀ l : List (String × String),
      (l.filter P).find? (fun p => p.1 == key) =
        l.find? (fun p => p.1 == key)
  | [] => rfl
  | p :: l => by
    by_cases hk : p.1 = key
    · have hP : P p = true := h p hk
      have hbeq : (p.1 == key) = true := by simp [hk]
      rw [List.filter_cons_of_pos hP]
      simp only [List.find?, hbeq]
    · have hbeq : (p.1 == key) = false := by simp [hk]
      by_cases hP : P p = true
      · rw [List.filter_cons_of_pos hP]
        simp only [List.find?, hbeq]
        exact find?_filter_key P key h l
      · rw [List.filter_cons_of_neg (by simpa using hP)]
        simp only [List.find?, hbeq]
        exact find?_filter_key P key h l

lemma dictGet_filter_known (questions : List QuizQuestion)
    (answers : List (String × String)) {q : QuizQuestion}
    (hq : q ∈ questions) :
    dictGet (answers.filter
        (fun p => questions.any (fun q2 => q2.question_id == p.1)))
      q.question_id = dictGet answers q.question_id := by
  unfold dictGet
  rw [find?_filter_key _ q.question_id ?_ answers]
  intro p hp
  rw [List.any_eq_true]
  exact ⟨q, hq, by simp [hp]⟩

/-- C9 (counterexample to the claim as stated): the submission
`{"zz-unknown": "4"}` references a question identifier absent from the
one-question quiz, yet `grade_quiz` does not reject it — it returns a
normal graded result in which the unmatched answer was simply ignored and
the quiz's own question was marked wrong for lack of an answer. -/
theorem grade_quiz_unknown_id_not_rejected_cex :
    (¬ ("zz-unknown" ∈ List.map QuizQuestion.question_id [exampleQuestion])) ∧
    grade_quiz [exampleQuestion] [("zz-unknown", "4")] =
      Except.ok
        { score := 0
          correct_count := 0
          total := 1
          feedback := [{
            question_id := "q1"
            user_answer := ""
            correct_answer := "4"
            is_correct := false
            explanation := "Basic arithmetic" }] } := by
  constructor
  · decide
  · norm_num [grade_quiz, gradeStep, gradeEntry, dictGet, exampleQuestion,
      List.find?]
    decide

/-- C9 (amended): `grade_quiz` neither rejects nor penalizes answers that
reference unknown question identifiers — it silently ignores them.
Dropping every answer whose key is not a question id of the quiz leaves the
grading result unchanged, and grading a non-empty quiz always returns a
normal (non-error) result. -/
theorem grade_quiz_ignores_unknown_question_ids
    (questions : List QuizQuestion) (answers : List (String × String)) :
    grade_quiz questions
        (answers.filter
          (fun p => questions.any (fun q => q.question_id == p.1))) =
      grade_quiz questions answers ∧
    (questions ≠ [] →
      ∃ r : GradeResult, grade_quiz questions answers = Except.ok r) := by
  constructor
  · unfold grade_quiz
    rw [grade_quiz_foldl _ questions 0 [], grade_quiz_foldl _ questions 0 []]
    have hcount :
        questions.countP
            (fun q =>
              dictGet (answers.filter
                  (fun p => questions.any (fun q2 => q2.question_id == p.1)))
                q.question_id == q.correct_answer) =
          questions.countP
            (fun q => dictGet answers q.question_id == q.correct_answer) := by
      apply List.countP_congr
      intro q hq
      rw [dictGet_filter_known questions answers hq]
    have hmap :
        questions.map (gradeEntry
            (answers.filter
              (fun p => questions.any (fun q2 => q2.question_id == p.1)))) =
          questions.map (gradeEntry answers) := by
      apply List.map_congr_left
      intro q hq
      simp only [gradeEntry, dictGet_filter_known questions answers hq]
    rw [hcount, hmap]
  · intro h
    have hlen : questions.length ≠ 0 := by simpa using h
    unfold grade_quiz
    exact ⟨_, by rw [if_neg hlen]⟩

/-- Witness for the amended C9 at a concrete input: an answer set holding
both the real answer and an entry for an unknown id grades exactly like the
answer set without the unknown entry. -/
theorem grade_quiz_ignores_unknown_question_ids_witness :
    grade_quiz [exampleQuestion] [("q1", "4"), ("zz-unknown", "9")] =
      grade_quiz [exampleQuestion] [("q1", "4")] ∧
    grade_quiz [exampleQuestion] [("q1", "4"), ("zz-unknown", "9")] ≠
      Except.error "ZeroDivisionError: division by zero" := by
  have h :=
    grade_quiz_ignores_unknown_question_ids [exampleQuestion]
      [("q1", "4"), ("zz-unknown", "9")]
  constructor
  · have hfilter :
        ([("q1", "4"), ("zz-unknown", "9")].filter
          (fun p =>
            [exampleQuestion].any (fun q => q.question_id == p.1))) =
          [("q1", "4")] := by decide
    rw [← hfilter]
    exact h.1
  · obtain ⟨r, hr⟩ := h.2 (by simp)
    rw [hr]
    simp

/-- Modelled from the spec: smoothing factor α = 0.3
(`DOCUMENTATION.md` §11.2). -/
def SMOOTHING_ALPHA : ℚ := 3 / 10

/-- Modelled from the spec: the smoothed-score update of `quiz_service.py`
is not in the repository snapshot. Spec §4.6: on the first attempt the
smoothed score is initialized to `raw/100` (not to 0); afterwards
`new = α * (raw/100) + (1 - α) * previous` (`DOCUMENTATION.md` §11.2).
`prior_attempts` is the attempt count before this attempt. The stored
example in `DOCUMENTATION.md` §6.3 (attempts 66.67 then 85.0 giving 0.72)
matches this initialization and not an initialization to 0. -/
def updateSmoothedScore (prior_attempts : Nat) (prev_smoothed : ℚ)
    (raw_score : ℚ) : ℚ :=
  if prior_attempts = 0 then raw_score / 100
  else SMOOTHING_ALPHA * (raw_score / 100) +
    (1 - SMOOTHING_ALPHA) * prev_smoothed

/-- One `attempt_history` entry of the progress schema
(`DOCUMENTATION.md` §6.3), without the timestamp. -/
structure AttemptEntry where
  attempt_number : Nat
  score : ℚ
  passed : Bool
  feedback : Option String
deriving DecidableEq, Repr

/-- Per-lesson proficiency record per the progress schema
(`DOCUMENTATION.md` §6.3). -/
structure ProficiencyRecord where
  quiz_attempts : Nat
  best_score : ℚ
  smoothed_score : ℚ
  current_difficulty : Difficulty
  current_bloom_level : BloomLevel
  attempt_history : List AttemptEntry
  completed : Bool
deriving DecidableEq, Repr

/-- Modelled from the spec: the per-attempt proficiency update of
`process_quiz_submission` (spec §4.6; the Python body is not in the
repository snapshot): append to history, take the max for the best score,
apply the exponential-moving-average smoothing, and step difficulty and
Bloom level by the threshold policy. -/
def recordAttempt (rec : ProficiencyRecord) (raw_score : ℚ) :
    ProficiencyRecord :=
  { quiz_attempts := rec.quiz_attempts + 1
    best_score := max rec.best_score raw_score
    smoothed_score :=
      updateSmoothedScore rec.quiz_attempts rec.smoothed_score raw_score
    current_difficulty :=
      calculate_new_difficulty rec.current_difficulty raw_score
    current_bloom_level :=
      calculate_new_bloom_level rec.current_bloom_level raw_score
    attempt_history := rec.attempt_history ++
      [{ attempt_number := rec.quiz_attempts + 1
         score := raw_score
         passed := quizPassed raw_score
         feedback := none }]
    completed := rec.completed }

/-- Modelled from the spec: a proficiency record as created lazily on the
first quiz attempt (spec §3), before any attempt is recorded; difficulty
starts at the mid tier (`ProgressPage` falls back to `'medium'`) and the
Bloom level at the bottom. -/
def freshProficiencyRecord : ProficiencyRecord :=
  { quiz_attempts := 0
    best_score := 0
    smoothed_score := 0
    current_difficulty := .medium
    current_bloom_level := .remember
    attempt_history := []
    completed := false }

/-- C3: the smoothed score after the first graded attempt with raw score
`r` equals `r/100` exactly (initialized to the first raw score, not to 0);
after every subsequent attempt with raw score `r` it equals
`0.3 * (r/100) + 0.7 * previous`. In particular a first attempt scoring 90
gives smoothed 0.90 and a following attempt scoring 40 gives
`0.3 * 0.40 + 0.7 * 0.90 = 0.75`. -/
theorem smoothed_score_ema (rec : ProficiencyRecord) (r : ℚ) :
    (rec.quiz_attempts = 0 →
      (recordAttempt rec r).smoothed_score = r / 100) ∧
    (rec.quiz_attempts ≠ 0 →
      (recordAttempt rec r).smoothed_score =
        (3 / 10) * (r / 100) + (7 / 10) * rec.smoothed_score) ∧
    (recordAttempt freshProficiencyRecord 90).smoothed_score = 90 / 100 ∧
    (recordAttempt (recordAttempt freshProficiencyRecord 90)
        40).smoothed_score = 3 / 4 := by
  refine ⟨?_, ?_, ?_, ?_⟩
  · intro h0
    simp [recordAttempt, updateSmoothedScore, h0]
  · intro h0
    simp only [recordAttempt, updateSmoothedScore, SMOOTHING_ALPHA, if_neg h0]
    norm_num
  · norm_num [recordAttempt, updateSmoothedScore, freshProficiencyRecord]
  · norm_num [recordAttempt, updateSmoothedScore, SMOOTHING_ALPHA,
      freshProficiencyRecord]

/-- Witness for C3 at concrete inputs: the initialization case and the
recurrence case instantiated on the fresh record and its successor. -/
theorem smoothed_score_ema_witness :
    (recordAttempt freshProficiencyRecord 90).smoothed_score = 90 / 100 ∧
    (recordAttempt (recordAttempt freshProficiencyRecord 90)
        40).smoothed_score =
      (3 / 10) * (40 / 100) +
        (7 / 10) * (recordAttempt freshProficiencyRecord 90).smoothed_score := by
  constructor
  · exact (smoothed_score_ema freshProficiencyRecord 90).1 rfl
  · exact (smoothed_score_ema (recordAttempt freshProficiencyRecord 90)
        40).2.1 (by norm_num [recordAttempt, freshProficiencyRecord])

/-- The `{level, color}` pair `calculate_mastery_level` returns
(`DOCUMENTATION.md` §11.3); `description` and `score` are omitted as they
play no role in the claims. -/
structure MasteryInfo where
  level : String
  color : String
deriving DecidableEq, Repr

/-- `calculate_mastery_level(best_score, quiz_attempts)` transcribed from
`DOCUMENTATION.md` §11.3. -/
def calculate_mastery_level (best_score : ℚ) (quiz_attempts : Nat) :
    MasteryInfo :=
  if quiz_attempts = 0 then { level := "Not Started", color := "gray" }
  else if (85 : ℚ) ≤ best_score then { level := "Mastered", color := "emerald" }
  else if (70 : ℚ) ≤ best_score then { level := "Proficient", color := "blue" }
  else if (50 : ℚ) ≤ best_score then { level := "Developing", color := "amber" }
  else { level := "Needs Practice", color := "rose" }

/-- The keys of `masteryConfig` in `MasteryIndicator.jsx` (lines 4-40). -/
def masteryConfigKeys : List String :=
  ["Mastery", "Proficient", "Developing", "Beginning", "Not Started"]

/-- The keys of the `masteryCount` object built in `ProgressPage`
(`src/unnamed/part_005` lines 303-309). -/
def masteryCountKeys : List String :=
  ["Mastery", "Proficient", "Developing", "Beginning", "Not Started"]

/-- The config lookup of `MasteryIndicator.jsx` line 43:
`masteryConfig[mastery?.level] || masteryConfig['Not Started']` — an
unknown level falls back to the Not-Started styling. -/
def masteryIndicatorLookup (level : String) : String :=
  if masteryConfigKeys.contains level then level else "Not Started"

/-- C4: the engine classifies exactly as claimed at representative and
boundary scores — `"Not Started"` at zero attempts, `"Mastered"` from 85
up, `"Proficient"` on `[70, 85)`, `"Developing"` on `[50, 70)`,
`"Needs Practice"` below 50 — but the labels `"Mastered"` and
`"Needs Practice"` are NOT in the UI layer's vocabulary: both
`MasteryIndicator.jsx`'s `masteryConfig` and `ProgressPage`'s
`masteryCount` use `"Mastery"` and `"Beginning"` instead, so a mastered
lesson is rendered through the Not-Started fallback styling. -/
theorem mastery_label_ui_vocabulary_mismatch :
    (calculate_mastery_level 100 0).level = "Not Started" ∧
    (calculate_mastery_level 90 1).level = "Mastered" ∧
    (calculate_mastery_level 85 1).level = "Mastered" ∧
    (calculate_mastery_level 84 1).level = "Proficient" ∧
    (calculate_mastery_level 70 2).level = "Proficient" ∧
    (calculate_mastery_level 69 1).level = "Developing" ∧
    (calculate_mastery_level 50 1).level = "Developing" ∧
    (calculate_mastery_level 49 1).level = "Needs Practice" ∧
    masteryConfigKeys.contains (calculate_mastery_level 90 1).level =
      false ∧
    masteryCountKeys.contains (calculate_mastery_level 90 1).level =
      false ∧
    masteryConfigKeys.contains (calculate_mastery_level 49 1).level =
      false ∧
    masteryIndicatorLookup (calculate_mastery_level 90 1).level =
      "Not Started" := by
  norm_num [calculate_mastery_level, masteryIndicatorLookup,
    masteryConfigKeys, masteryCountKeys]
  decide

/-- `ProgressBar.jsx` line 4:
`Math.min(100, Math.max(0, (value / max) * 100))`. -/
def progressBarPercentage (value maxValue : ℚ) : ℚ :=
  min 100 (max 0 (value / maxValue * 100))

/-- C10: for every numeric value and positive max, the ProgressBar fill
percentage is the clamp `min(100, max(0, (value/max)·100))`, so the
rendered width always lies in `[0, 100]`, collapsing to 0 for nonpositive
values and to 100 once the value reaches the max. -/
theorem progress_bar_percentage_clamped (value maxValue : ℚ)
    (h : 0 < maxValue) :
    progressBarPercentage value maxValue =
      min 100 (max 0 (value / maxValue * 100)) ∧
    0 ≤ progressBarPercentage value maxValue ∧
    progressBarPercentage value maxValue ≤ 100 ∧
    (value ≤ 0 → progressBarPercentage value maxValue = 0) ∧
    (maxValue ≤ value → progressBarPercentage value maxValue = 100) := by
  refine ⟨rfl, ?_, ?_, ?_, ?_⟩
  · rw [progressBarPercentage, le_min_iff]
    exact ⟨by norm_num, le_max_left 0 _⟩
  · exact min_le_left 100 _
  · intro hv
    have hinv : 0 < maxValue⁻¹ := inv_pos.mpr h
    have h2 : value / maxValue * 100 ≤ 0 := by
      rw [div_eq_mul_inv]
      nlinarith [mul_nonneg (neg_nonneg.mpr hv) hinv.le]
    rw [progressBarPercentage, max_eq_left h2, min_eq_right (by norm_num)]
  · intro hv
    have h1 : (1 : ℚ) ≤ value / maxValue := (one_le_div h).mpr hv
    have h2 : (100 : ℚ) ≤ value / maxValue * 100 := by nlinarith
    rw [progressBarPercentage,
      max_eq_right (le_trans (by norm_num) h2), min_eq_left h2]

/-- Witness for C10 at concrete inputs: a negative value clamps to 0, an
overflowing value clamps to 100, with the default max of 100. -/
theorem progress_bar_percentage_clamped_witness :
    progressBarPercentage (-5) 100 = 0 ∧
    progressBarPercentage 150 100 = 100 := by
  constructor
  · exact (progress_bar_percentage_clamped (-5) 100 (by norm_num)).2.2.2.1
      (by norm_num)
  · exact (progress_bar_percentage_clamped 150 100 (by norm_num)).2.2.2.2
      (by norm_num)

/-- The `type` fields of `feedbackOptions` in `FeedbackPanel`
(`src/unnamed/part_005` lines 4-10) — the tags the content-feedback form
submits as `feedback_type`. -/
def feedbackPanelTypes : List String :=
  ["too_easy", "too_hard", "unclear", "more_examples", "different_approach"]

/-- The documented `feedback_type` vocabulary of `POST /feedback`
(`DOCUMENTATION.md` §7.5): `too_easy`, `too_hard`, `unclear`,
`more_examples`, `different_approach`. These are the code-level names of
the spec's too-easy / too-hard / unclear / wants-more-examples /
wants-different-approach reasons. -/
def documentedFeedbackTypes : List String :=
  ["too_easy", "too_hard", "unclear", "more_examples", "different_approach"]

/-- The `id` fields of `FEEDBACK_OPTIONS` in `WrongAnswerFeedbackModal`
(`src/unnamed/part_005` lines 120-151): post-quiz display strings handed to
an `onFeedback` callback, not `feedback_type` submissions. -/
def wrongAnswerFeedbackIds : List String :=
  ["Too difficult", "Concept unclear", "Need more examples"]

/-- The `value` fields of `feedbackOptions` in `QuizFeedbackModal.jsx`
lines 9-14: post-quiz display strings handed to an `onFeedback` callback,
not `feedback_type` submissions. -/
def quizFeedbackModalValues : List String :=
  ["Too difficult", "Concept unclear", "Need more examples",
    "Okay, can continue"]

/-- Modelled from the spec: validation of a submitted `feedback_type`
(`main.py` / `models.py`'s `FeedbackRequest` are not in the repository
snapshot). Spec §6: the vocabulary is fixed and closed and unrecognized
tags must be rejected, not silently defaulted. -/
def validateFeedbackType (tag : String) : Except String String :=
  if documentedFeedbackTypes.contains tag then Except.ok tag
  else Except.error "unrecognized feedback type"

/-- C8: the `feedback_type` vocabulary accepted from the UI is fixed and
closed — exactly the five documented reasons, which coincide with the five
tags the `FeedbackPanel` form can submit — and every tag outside this set
is rejected with an error, never silently mapped to a recognized tag. -/
theorem feedback_vocabulary_closed :
    documentedFeedbackTypes = feedbackPanelTypes ∧
    documentedFeedbackTypes.length = 5 ∧
    (∀ tag : String,
      (∃ t, validateFeedbackType tag = Except.ok t) ↔
        tag ∈ documentedFeedbackTypes) ∧
    (∀ tag t, validateFeedbackType tag = Except.ok t → t = tag) ∧
    (∀ tag, tag ∉ documentedFeedbackTypes →
      validateFeedbackType tag = Except.error "unrecognized feedback type") := by
  refine ⟨rfl, rfl, ?_, ?_, ?_⟩
  · intro tag
    constructor
    · rintro ⟨t, ht⟩
      by_contra hc
      simp [validateFeedbackType, hc] at ht
    · intro hmem
      exact ⟨tag, by simp [validateFeedbackType, hmem]⟩
  · intro tag t ht
    by_cases hmem : tag ∈ documentedFeedbackTypes
    · simp [validateFeedbackType, hmem] at ht
      exact ht.symm
    · simp [validateFeedbackType, hmem] at ht
  · intro tag hc
    simp [validateFeedbackType, hc]

/-- Witness for C8 at concrete tags: `"too_hard"` is accepted unchanged and
the unrecognized tag `"somewhat_hard"` is rejected. -/
theorem feedback_vocabulary_closed_witness :
    validateFeedbackType "too_hard" = Except.ok "too_hard" ∧
    validateFeedbackType "somewhat_hard" =
      Except.error "unrecognized feedback type" := by
  constructor
  · obtain ⟨t, ht⟩ :=
      (feedback_vocabulary_closed.2.2.1 "too_hard").mpr (by decide)
    have := feedback_vocabulary_closed.2.2.2.1 "too_hard" t ht
    rwa [this] at ht
  · exact feedback_vocabulary_closed.2.2.2.2 "somewhat_hard" (by decide)

/-- The canonical difficulty labels (`models.py` `Difficulty` values). -/
def difficultyNames : List String := ["easy", "medium", "hard"]

/-- The canonical Bloom labels (`models.py` `BloomLevel` values). -/
def bloomNames : List String :=
  ["Remember", "Understand", "Apply", "Analyze", "Evaluate", "Create"]

/-- Modelled from the spec: the Schema Validator for a candidate quiz
question (spec §4.1; the Python validation inside `course_generator.py` /
`quiz_service.py` is not in the repository snapshot). Checks required-field
presence, the four-option shape, enumeration membership, and the
cross-field invariant that the designated correct option is a member of
the option set; any violation rejects the question with a validation
failure. -/
def validateQuizQuestion (q : QuizQuestion) : Except String QuizQuestion :=
  if q.question_id = "" then Except.error "missing question_id"
  else if q.question = "" then Except.error "missing question text"
  else if q.options.length ≠ 4 then
    Except.error "question must have exactly 4 options"
  else if q.options.contains q.correct_answer = false then
    Except.error "correct answer is not among the options"
  else if difficultyNames.contains q.difficulty = false then
    Except.error "unknown difficulty label"
  else if bloomNames.contains q.bloom_level = false then
    Except.error "unknown bloom level label"
  else if q.explanation = "" then Except.error "missing explanation"
  else Except.ok q

/-- C7: every candidate quiz question whose designated correct option is
not a member of its option set is rejected by the Schema Validator with a
validation failure — never accepted, and never silently corrected to some
option — even when every other field is well-formed. -/
theorem validator_rejects_foreign_correct_answer (q : QuizQuestion)
    (h : q.correct_answer ∉ q.options) :
    (∀ q2 : QuizQuestion, validateQuizQuestion q ≠ Except.ok q2) ∧
    (∃ e, validateQuizQuestion q = Except.error e) := by
  have hc : q.options.contains q.correct_answer = false := by
    simpa using h
  unfold validateQuizQuestion
  constructor
  · intro q2
    split_ifs <;> simp_all
  · split_ifs <;> simp_all

/-- The question of C7's witness: identical to `exampleQuestion` except its
designated correct option `"7"` is not among the four options. -/
def foreignAnswerQuestion : QuizQuestion :=
  { exampleQuestion with correct_answer := "7" }

/-- Witness for C7: the concrete question whose correct option is foreign
to its option set is not accepted — neither as-is nor silently corrected
back to a question with a valid answer. -/
theorem validator_rejects_foreign_correct_answer_witness :
    validateQuizQuestion foreignAnswerQuestion ≠
      Except.ok foreignAnswerQuestion ∧
    validateQuizQuestion foreignAnswerQuestion ≠
      Except.ok exampleQuestion := by
  have h := validator_rejects_foreign_correct_answer foreignAnswerQuestion
    (by decide)
  exact ⟨h.1 foreignAnswerQuestion, h.1 exampleQuestion⟩

/-- Outcome of one Generation Client call: raw response text, or a
transport failure (timeout / auth / rate-limit / network, spec §4.3). -/
inductive LLMCallResult where
  | response (text : String)
  | transportFailure
deriving DecidableEq, Repr

/-- Observable step of one pipeline invocation. The orchestrator issues
generator calls; a `backoffDelay` constructor exists so that the absence of
any backoff between attempts is expressible. -/
inductive PipelineEvent where
  | generatorCall (index : Nat)
  | backoffDelay
deriving DecidableEq, Repr

/-- Modelled from the spec: the retry loop of `call_llm_with_retry` /
`generateValidated` (`llm_service.py` is not in the repository snapshot;
`DOCUMENTATION.md` §4.2.5 gives only its docstring and `MAX_RETRIES = 3`).
Spec §4.4: for attempt `1..maxAttempts` call the Generation Client (`gen`
gives the outcome of the i-th call); on transport failure continue to the
next attempt immediately with no backoff delay; on success feed the text
through repair-then-validation (`validate`); if it yields a value, return
immediately. `remaining` counts attempts left, `callIndex` the next call's
index; the returned list is the ordered event trace. -/
def runValidatedAttempts (gen : Nat → LLMCallResult)
    (validate : String → Option α) :
    Nat → Nat → Option α × List PipelineEvent
  | 0, _ => (none, [])
  | Nat.succ remaining, callIndex =>
    match gen callIndex with
    | .transportFailure =>
      let r := runValidatedAttempts gen validate remaining (callIndex + 1)
      (r.1, PipelineEvent.generatorCall callIndex :: r.2)
    | .response text =>
      match validate text with
      | some v => (some v, [PipelineEvent.generatorCall callIndex])
      | none =>
        let r := runValidatedAttempts gen validate remaining (callIndex + 1)
        (r.1, PipelineEvent.generatorCall callIndex :: r.2)

/-- Modelled from the spec: `generateValidated(prompt, shape, maxAttempts)`
as the retry loop started at the first call. -/
def generateValidated (gen : Nat → LLMCallResult)
    (validate : String → Option α) (maxAttempts : Nat) :
    Option α × List PipelineEvent :=
  runValidatedAttempts gen validate maxAttempts 0

/-- Attempt `j` does not produce a validated value: transport failure, or a
response that fails repair-plus-validation. -/
def attemptFails (gen : Nat → LLMCallResult) (validate : String → Option α)
    (j : Nat) : Prop :=
  gen j = .transportFailure ∨
    ∃ t, gen j = .response t ∧ validate t = none

/-- Attempt `k` responds with text that validates to `v`. -/
def attemptSucceedsWith (gen : Nat → LLMCallResult)
    (validate : String → Option α) (k : Nat) (v : α) : Prop :=
  ∃ t, gen k = .response t ∧ validate t = some v

lemma range_map_succ {β : Type} (f : Nat → β) (n : Nat) :
    (List.range (n + 1)).map f =
      f 0 :: (List.range n).map (fun i => f (i + 1)) := by
  rw [List.range_succ_eq_map, List.map_cons, List.map_map]
  rfl

lemma runValidatedAttempts_calls_le (gen : Nat → LLMCallResult)
    (validate : String → Option α) :
    ∀ (n base : Nat),
      (runValidatedAttempts gen validate n base).2.length ≤ n
  | 0, _ => by simp [runValidatedAttempts]
  | Nat.succ m, base => by
    unfold runValidatedAttempts
    split
    · simpa using runValidatedAttempts_calls_le gen validate m (base + 1)
    · split
      · simp
      · simpa using runValidatedAttempts_calls_le gen validate m (base + 1)

lemma runValidatedAttempts_no_backoff (gen : Nat → LLMCallResult)
    (validate : String → Option α) :
    ∀ (n base : Nat),
      PipelineEvent.backoffDelay ∉
        (runValidatedAttempts gen validate n base).2
  | 0, _ => by simp [runValidatedAttempts]
  | Nat.succ m, base => by
    unfold runValidatedAttempts
    split
    · simpa using runValidatedAttempts_no_backoff gen validate m (base + 1)
    · split
      · simp
      · simpa using runValidatedAttempts_no_backoff gen validate m (base + 1)

lemma runValidatedAttempts_first_success (gen : Nat → LLMCallResult)
    (validate : String → Option α) :
    ∀ (k n base : Nat) (v : α), k < n →
      (∀ j, j < k → attemptFails gen validate (base + j)) →
      attemptSucceedsWith gen validate (base + k) v →
      runValidatedAttempts gen validate n base =
        (some v,
          (List.range (k + 1)).map
            (fun i => PipelineEvent.generatorCall (base + i)))
  | 0, n, base, v => by
    intro hk _ hsucc
    obtain ⟨t, hg, hv⟩ := hsucc
    obtain ⟨m, rfl⟩ := Nat.exists_eq_add_of_lt hk
    simp only [Nat.add_zero] at hg hv
    unfold runValidatedAttempts
    simp only [hg, hv]
    rw [show List.range 1 = [0] from rfl]
    simp
  | Nat.succ k, n, base, v => by
    intro hk hfails hsucc
    obtain ⟨m, rfl⟩ := Nat.exists_eq_add_of_lt hk
    have hfail0 := hfails 0 (Nat.succ_pos k)
    have hrest :
        runValidatedAttempts gen validate (k + m + 1) (base + 1) =
          (some v,
            (List.range (k + 1)).map
              (fun i => PipelineEvent.generatorCall (base + 1 + i))) := by
      apply runValidatedAttempts_first_success gen validate k (k + m + 1)
        (base + 1) v (by omega)
      · intro j hj
        have := hfails (j + 1) (by omega)
        have harg : base + (j + 1) = base + 1 + j := by omega
        rwa [harg] at this
      · have harg : base + (k + 1) = base + 1 + k := by omega
        rwa [harg] at hsucc
    have htail :
        (List.range (k + 1)).map
            (fun i => PipelineEvent.generatorCall (base + (i + 1))) =
          (List.range (k + 1)).map
            (fun i => PipelineEvent.generatorCall (base + 1 + i)) := by
      apply List.map_congr_left
      intro i _
      have h2 : base + (i + 1) = base + 1 + i := by omega
      rw [h2]
    have hshape :
        (List.range (k + 1 + 1)).map
            (fun i => PipelineEvent.generatorCall (base + i)) =
          PipelineEvent.generatorCall base ::
            (List.range (k + 1)).map
              (fun i => PipelineEvent.generatorCall (base + 1 + i)) := by
      rw [range_map_succ]
      simp only [Nat.add_zero]
      rw [htail]
    rcases hfail0 with hg | ⟨t, hg, hv⟩
    · rw [Nat.add_zero] at hg
      show runValidatedAttempts gen validate (k + 1 + m + 1) base = _
      unfold runValidatedAttempts
      have hn : k + 1 + m + 1 = Nat.succ (k + m + 1) := by omega
      simp only [hg]
      rw [show k + 1 + m = k + m + 1 from by omega, hrest, hshape]
    · rw [Nat.add_zero] at hg
      show runValidatedAttempts gen validate (k + 1 + m + 1) base = _
      unfold runValidatedAttempts
      simp only [hg, hv]
      rw [show k + 1 + m = k + m + 1 from by omega, hrest, hshape]

/-- C5: for every invocation of `generateValidated`, at most `maxAttempts`
Generation Client calls are issued; the event trace contains no backoff
delay (a transport failure is followed immediately by the next call); and
when the first `k` attempts fail and attempt `k` validates to `v`, the
pipeline returns `v` having issued exactly the calls `0..k` — no further
generator call after the success. -/
theorem retry_orchestrator_bounded_first_success {α : Type}
    (gen : Nat → LLMCallResult) (validate : String → Option α)
    (maxAttempts : Nat) :
    ((generateValidated gen validate maxAttempts).2.length ≤ maxAttempts) ∧
    (PipelineEvent.backoffDelay ∉
      (generateValidated gen validate maxAttempts).2) ∧
    (∀ k v, k < maxAttempts →
      (∀ j, j < k → attemptFails gen validate j) →
      attemptSucceedsWith gen validate k v →
      generateValidated gen validate maxAttempts =
        (some v, (List.range (k + 1)).map PipelineEvent.generatorCall)) := by
  refine ⟨runValidatedAttempts_calls_le gen validate maxAttempts 0,
    runValidatedAttempts_no_backoff gen validate maxAttempts 0, ?_⟩
  intro k v hk hfails hsucc
  have h := runValidatedAttempts_first_success gen validate k maxAttempts 0 v
    hk (by simpa using hfails) (by simpa using hsucc)
  rw [generateValidated, h]
  simp

/-- Concrete generator of C5's witness: the first call fails at transport
level, the second returns the text `"[1]"`. -/
def exampleGen : Nat → LLMCallResult :=
  fun i => if i = 0 then .transportFailure else .response "[1]"

/-- Concrete validator of C5's witness: accepts exactly the text `"[1]"`. -/
def exampleValidate : String → Option Nat :=
  fun t => if t = "[1]" then some 42 else none

/-- Witness for C5: with a transport failure on the first call and a valid
response on the second, `generateValidated` with the bound 3 returns the
validated value after exactly two calls and no backoff event. -/
theorem retry_orchestrator_bounded_first_success_witness :
    generateValidated exampleGen exampleValidate 3 =
      (some 42,
        [PipelineEvent.generatorCall 0, PipelineEvent.generatorCall 1]) := by
  have h :=
    (retry_orchestrator_bounded_first_success exampleGen exampleValidate
        3).2.2 1 42 (by norm_num) ?_ ?_
  · rw [h]
    rfl
  · intro j hj
    have hj0 : j = 0 := by omega
    subst hj0
    exact Or.inl rfl
  · exact ⟨"[1]", rfl, rfl⟩

/-- The opening curly brace character, U+007B. -/
def openBrace : Char := Char.ofNat 123

/-- The closing curly brace character, U+007D. -/
def closeBrace : Char := Char.ofNat 125

/-- A character opening a JSON structure: a square bracket or a brace. -/
def isOpenBracket (c : Char) : Bool := c == '[' || c == openBrace

/-- A character closing a JSON structure. -/
def isCloseBracket (c : Char) : Bool := c == ']' || c == closeBrace

/-- A character that the structural scanner treats as inert outside string
literals: neither a quote nor an opening or closing bracket. -/
def isPlainChar (c : Char) : Bool :=
  !(c == '"') && !(isOpenBracket c) && !(isCloseBracket c)

/-- Modelled from the spec: the bracket scanner of `validate_json`'s
structural-extraction stage (`llm_service.py` is not in the repository
snapshot; `DOCUMENTATION.md` §9.3 lists the extract-array / extract-object
stages). Spec §4.2 stage 3: match nested brackets while ignoring brackets
inside string literals (string literals are delimited by `"` with
backslash escapes). Scanning starts at an opening bracket with depth 0;
the span up to the close that returns the depth to zero is returned. -/
def scanBalanced : List Char → Nat → Bool → Bool → List Char →
    Option (List Char)
  | [], _, _, _, _ => none
  | c :: cs, depth, inString, escaped, acc =>
    if inString then
      if escaped then scanBalanced cs depth true false (acc ++ [c])
      else if c = '\\' then scanBalanced cs depth true true (acc ++ [c])
      else if c = '"' then scanBalanced cs depth false false (acc ++ [c])
      else scanBalanced cs depth true false (acc ++ [c])
    else if c = '"' then scanBalanced cs depth true false (acc ++ [c])
    else if isOpenBracket c then
      scanBalanced cs (depth + 1) false false (acc ++ [c])
    else if isCloseBracket c then
      if depth = 1 then some (acc ++ [c])
      else if depth = 0 then none
      else scanBalanced cs (depth - 1) false false (acc ++ [c])
    else scanBalanced cs depth false false (acc ++ [c])

/-- Modelled from the spec: structural extraction (spec §4.2 stage 3) —
locate the first opening bracket and return the balanced span starting
there, discarding leading and trailing commentary. -/
def extractFirstBalanced : List Char → Option (List Char)
  | [] => none
  | c :: cs =>
    if isOpenBracket c then scanBalanced (c :: cs) 0 false false []
    else extractFirstBalanced cs

/-- Modelled from the spec: the layered-repair combinator (spec §4.2 /
§9 design note): stages are attempted in order and the first successful
stage's decode is returned. -/
def firstSuccess : List (List Char → Option α) → List Char → Option α
  | [], _ => none
  | stage :: rest, text =>
    match stage text with
    | some v => some v
    | none => firstSuccess rest text

/-- Abstract JSON values, as produced by the generator and re-serialized
into response text. Strings are character lists; numbers are a sign plus a
digit list (each entry a digit value `< 10` under well-formedness). -/
inductive Json where
  | null
  | bool (b : Bool)
  | num (neg : Bool) (digits : List Nat)
  | str (s : List Char)
  | arr (items : List Json)
  | obj (fields : List (List Char × Json))

/-- The decimal digit character for `d`. -/
def digitChar (d : Nat) : Char := Char.ofNat (48 + d)

mutual

/-- Standard serialization of a JSON value into text. -/
def serialize : Json → List Char
  | .null => "null".data
  | .bool true => "true".data
  | .bool false => "false".data
  | .num neg digits =>
    (if neg then ['-'] else []) ++ digits.map digitChar
  | .str s => '"' :: (s ++ ['"'])
  | .arr items => '[' :: (serializeItems items ++ [']'])
  | .obj fields => openBrace :: (serializeFields fields ++ [closeBrace])

/-- Comma-separated serialization of array items. -/
def serializeItems : List Json → List Char
  | [] => []
  | [v] => serialize v
  | v :: w :: rest => serialize v ++ ',' :: serializeItems (w :: rest)

/-- Comma-separated serialization of object fields (`"key":value`). -/
def serializeFields : List (List Char × Json) → List Char
  | [] => []
  | [(k, v)] => ('"' :: (k ++ ['"'])) ++ ':' :: serialize v
  | (k, v) :: f :: rest =>
    ('"' :: (k ++ ['"'])) ++ ':' :: serialize v ++
      ',' :: serializeFields (f :: rest)

end

mutual

/-- Well-formed JSON values: string contents and object keys contain no
quote or backslash (so the serialization needs no escapes), and number
digit lists are non-empty with every digit `< 10`. -/
def wfJson : Json → Prop
  | .null => True
  | .bool _ => True
  | .num _ digits => digits ≠ [] ∧ ∀ d ∈ digits, d < 10
  | .str s => ∀ c ∈ s, c ≠ '"' ∧ c ≠ '\\'
  | .arr items => wfItems items
  | .obj fields => wfFields fields

/-- Well-formedness of an item list. -/
def wfItems : List Json → Prop
  | [] => True
  | v :: rest => wfJson v ∧ wfItems rest

/-- Well-formedness of a field list. -/
def wfFields : List (List Char × Json) → Prop
  | [] => True
  | (k, v) :: rest =>
    (∀ c ∈ k, c ≠ '"' ∧ c ≠ '\\') ∧ wfJson v ∧ wfFields rest

end

/-- A compound JSON value: an array or an object — exactly the shapes the
structural-extraction stage looks for. -/
def isCompound : Json → Bool
  | .arr _ => true
  | .obj _ => true
  | _ => false

lemma digitChar_plain {d : Nat} (h : d < 10) :
    isPlainChar (digitChar d) = true := by
  interval_cases d <;> decide

lemma close_not_open_not_quote {c : Char} (h : isCloseBracket c = true) :
    isOpenBracket c = false ∧ c ≠ '"' := by
  simp only [isCloseBracket, Bool.or_eq_true, beq_iff_eq] at h
  rcases h with h | h <;> subst h <;> exact ⟨by decide, by decide⟩

lemma open_not_quote {c : Char} (h : isOpenBracket c = true) : c ≠ '"' := by
  simp only [isOpenBracket, Bool.or_eq_true, beq_iff_eq] at h
  rcases h with h | h <;> subst h <;> decide

lemma scanBalanced_plain {c : Char} (h : isPlainChar c = true)
    (cs : List Char) (depth : Nat) (acc : List Char) :
    scanBalanced (c :: cs) depth false false acc =
      scanBalanced cs depth false false (acc ++ [c]) := by
  have h1 : ¬ (c = '"') := by
    intro hc
    subst hc
    simp [isPlainChar] at h
  have h2 : ¬ (isOpenBracket c = true) := by
    intro hc
    simp [isPlainChar, hc] at h
  have h3 : ¬ (isCloseBracket c = true) := by
    intro hc
    simp [isPlainChar, hc] at h
  simp [scanBalanced, h1, h2, h3]

lemma scanBalanced_open {c : Char} (h : isOpenBracket c = true)
    (cs : List Char) (depth : Nat) (acc : List Char) :
    scanBalanced (c :: cs) depth false false acc =
      scanBalanced cs (depth + 1) false false (acc ++ [c]) := by
  simp [scanBalanced, open_not_quote h, h]

lemma scanBalanced_close_one {c : Char} (h : isCloseBracket c = true)
    (cs : List Char) (acc : List Char) :
    scanBalanced (c :: cs) 1 false false acc = some (acc ++ [c]) := by
  obtain ⟨ho, hq⟩ := close_not_open_not_quote h
  simp [scanBalanced, hq, ho, h]

lemma scanBalanced_close_deep {c : Char} (h : isCloseBracket c = true)
    (cs : List Char) (depth : Nat) (hd : 2 ≤ depth) (acc : List Char) :
    scanBalanced (c :: cs) depth false false acc =
      scanBalanced cs (depth - 1) false false (acc ++ [c]) := by
  obtain ⟨ho, hq⟩ := close_not_open_not_quote h
  have hd1 : ¬ (depth = 1) := by omega
  have hd0 : ¬ (depth = 0) := by omega
  simp [scanBalanced, hq, ho, h, hd1, hd0]

lemma scanBalanced_seg_plain :
    ∀ (seg : List Char), (∀ c ∈ seg, isPlainChar c = true) →
      ∀ (cs : List Char) (depth : Nat) (acc : List Char),
        scanBalanced (seg ++ cs) depth false false acc =
          scanBalanced cs depth false false (acc ++ seg)
  | [], _, cs, depth, acc => by simp
  | c :: seg, h, cs, depth, acc => by
    rw [List.cons_append, scanBalanced_plain (h c (by simp)),
      scanBalanced_seg_plain seg (fun x hx => h x (by simp [hx])) cs depth
        (acc ++ [c])]
    simp

lemma scanBalanced_inString_step {c : Char} (h1 : c ≠ '"') (h2 : c ≠ '\\')
    (cs : List Char) (depth : Nat) (acc : List Char) :
    scanBalanced (c :: cs) depth true false acc =
      scanBalanced cs depth true false (acc ++ [c]) := by
  simp [scanBalanced, h1, h2]

lemma scanBalanced_inString_seg :
    ∀ (s : List Char), (∀ c ∈ s, c ≠ '"' ∧ c ≠ '\\') →
      ∀ (cs : List Char) (depth : Nat) (acc : List Char),
        scanBalanced (s ++ cs) depth true false acc =
          scanBalanced cs depth true false (acc ++ s)
  | [], _, cs, depth, acc => by simp
  | c :: s, h, cs, depth, acc => by
    rw [List.cons_append,
      scanBalanced_inString_step (h c (by simp)).1 (h c (by simp)).2,
      scanBalanced_inString_seg s (fun x hx => h x (by simp [hx])) cs depth
        (acc ++ [c])]
    simp

lemma scanBalanced_stringLit (s : List Char)
    (h : ∀ c ∈ s, c ≠ '"' ∧ c ≠ '\\') (cs : List Char) (depth : Nat)
    (acc : List Char) :
    scanBalanced (('"' :: (s ++ ['"'])) ++ cs) depth false false acc =
      scanBalanced cs depth false false (acc ++ ('"' :: (s ++ ['"']))) := by
  have hopen :
      scanBalanced ('"' :: ((s ++ ['"']) ++ cs)) depth false false acc =
        scanBalanced ((s ++ ['"']) ++ cs) depth true false (acc ++ ['"']) := by
    simp [scanBalanced]
  have hclose :
      ∀ acc2, scanBalanced ('"' :: cs) depth true false acc2 =
        scanBalanced cs depth false false (acc2 ++ ['"']) := by
    intro acc2
    simp [scanBalanced]
  rw [List.cons_append, hopen, List.append_assoc,
    scanBalanced_inString_seg s h (['"'] ++ cs) depth (acc ++ ['"']),
    show ['"'] ++ cs = '"' :: cs from rfl, hclose]
  simp

lemma scanBalanced_stringLit2 (s : List Char)
    (h : ∀ c ∈ s, c ≠ '"' ∧ c ≠ '\\') (cs : List Char) (depth : Nat)
    (acc : List Char) :
    scanBalanced ('"' :: (s ++ '"' :: cs)) depth false false acc =
      scanBalanced cs depth false false (acc ++ ('"' :: (s ++ ['"']))) := by
  have h0 := scanBalanced_stringLit s h cs depth acc
  simpa [List.append_assoc] using h0

mutual

lemma serialize_neutral :
    ∀ (v : Json), wfJson v →
      ∀ (cs : List Char) (depth : Nat), 1 ≤ depth → ∀ (acc : List Char),
        scanBalanced (serialize v ++ cs) depth false false acc =
          scanBalanced cs depth false false (acc ++ serialize v)
  | .null, _, cs, depth, _, acc => by
    rw [show serialize Json.null = "null".data from rfl]
    exact scanBalanced_seg_plain _ (by decide) cs depth acc
  | .bool true, _, cs, depth, _, acc => by
    rw [show serialize (Json.bool true) = "true".data from rfl]
    exact scanBalanced_seg_plain _ (by decide) cs depth acc
  | .bool false, _, cs, depth, _, acc => by
    rw [show serialize (Json.bool false) = "false".data from rfl]
    exact scanBalanced_seg_plain _ (by decide) cs depth acc
  | .num neg digits, hwf, cs, depth, _, acc => by
    rw [show serialize (Json.num neg digits) =
      (if neg then ['-'] else []) ++ digits.map digitChar from rfl]
    apply scanBalanced_seg_plain
    intro c hc
    rcases List.mem_append.mp hc with hc | hc
    · cases neg with
      | false => simp at hc
      | true =>
        simp at hc
        subst hc
        decide
    · obtain ⟨d, hdmem, rfl⟩ := List.mem_map.mp hc
      exact digitChar_plain (hwf.2 d hdmem)
  | .str s, hwf, cs, depth, _, acc => by
    rw [show serialize (Json.str s) = '"' :: (s ++ ['"']) from rfl]
    exact scanBalanced_stringLit s hwf cs depth acc
  | .arr items, hwf, cs, depth, hd, acc => by
    rw [show serialize (Json.arr items) =
      '[' :: (serializeItems items ++ [']']) from rfl]
    rw [List.cons_append, scanBalanced_open (by decide), List.append_assoc,
      serializeItems_neutral items hwf ([']'] ++ cs) (depth + 1)
        (by omega) (acc ++ ['[']),
      show [']'] ++ cs = ']' :: cs from rfl,
      scanBalanced_close_deep (by decide) cs (depth + 1) (by omega)]
    simp [List.append_assoc]
  | .obj fields, hwf, cs, depth, hd, acc => by
    rw [show serialize (Json.obj fields) =
      openBrace :: (serializeFields fields ++ [closeBrace]) from rfl]
    rw [List.cons_append, scanBalanced_open (by decide), List.append_assoc,
      serializeFields_neutral fields hwf ([closeBrace] ++ cs) (depth + 1)
        (by omega) (acc ++ [openBrace]),
      show [closeBrace] ++ cs = closeBrace :: cs from rfl,
      scanBalanced_close_deep (by decide) cs (depth + 1) (by omega)]
    simp [List.append_assoc]

lemma serializeItems_neutral :
    ∀ (items : List Json), wfItems items →
      ∀ (cs : List Char) (depth : Nat), 1 ≤ depth → ∀ (acc : List Char),
        scanBalanced (serializeItems items ++ cs) depth false false acc =
          scanBalanced cs depth false false (acc ++ serializeItems items)
  | [], _, cs, depth, _, acc => by
    simp [serializeItems]
  | [v], hwf, cs, depth, hd, acc => by
    rw [show serializeItems [v] = serialize v from rfl]
    exact serialize_neutral v hwf.1 cs depth hd acc
  | v :: w :: rest, hwf, cs, depth, hd, acc => by
    rw [show serializeItems (v :: w :: rest) =
      serialize v ++ ',' :: serializeItems (w :: rest) from rfl]
    rw [List.append_assoc, serialize_neutral v hwf.1 _ depth hd acc,
      List.cons_append, scanBalanced_plain (by decide),
      serializeItems_neutral (w :: rest) hwf.2 cs depth hd _]
    simp [List.append_assoc]

lemma serializeFields_neutral :
    ∀ (fields : List (List Char × Json)), wfFields fields →
      ∀ (cs : List Char) (depth : Nat), 1 ≤ depth → ∀ (acc : List Char),
        scanBalanced (serializeFields fields ++ cs) depth false false acc =
          scanBalanced cs depth false false (acc ++ serializeFields fields)
  | [], _, cs, depth, _, acc => by
    simp [serializeFields]
  | [(k, v)], hwf, cs, depth, hd, acc => by
    rw [show serializeFields [(k, v)] =
      ('"' :: (k ++ ['"'])) ++ ':' :: serialize v from rfl]
    rw [List.append_assoc, scanBalanced_stringLit k hwf.1 _ depth acc,
      List.cons_append, scanBalanced_plain (by decide),
      serialize_neutral v hwf.2.1 cs depth hd _]
    simp [List.append_assoc]
  | (k, v) :: f :: rest, hwf, cs, depth, hd, acc => by
    rw [show serializeFields ((k, v) :: f :: rest) =
      ('"' :: (k ++ ['"'])) ++ ':' :: serialize v ++
        ',' :: serializeFields (f :: rest) from rfl]
    simp only [List.cons_append, List.append_assoc, List.singleton_append]
    rw [scanBalanced_stringLit2 k hwf.1]
    simp only [List.nil_append]
    rw [scanBalanced_plain (by decide)]
    rw [serialize_neutral v hwf.2.1 _ depth hd _]
    rw [scanBalanced_plain (by decide)]
    rw [serializeFields_neutral (f :: rest) hwf.2.2 cs depth hd _]
    simp [List.append_assoc]

end

lemma serialize_compound_head (v : Json) (h : isCompound v = true) :
    ∃ c rest2, serialize v = c :: rest2 ∧ isOpenBracket c = true := by
  cases v with
  | null => simp [isCompound] at h
  | bool b => simp [isCompound] at h
  | num neg digits => simp [isCompound] at h
  | str s => simp [isCompound] at h
  | arr items => exact ⟨'[', _, rfl, by decide⟩
  | obj fields => exact ⟨openBrace, _, rfl, by decide⟩

lemma scanBalanced_serialize_compound (v : Json) (hwf : wfJson v)
    (hcomp : isCompound v = true) (cs acc : List Char) :
    scanBalanced (serialize v ++ cs) 0 false false acc =
      some (acc ++ serialize v) := by
  cases v with
  | null => simp [isCompound] at hcomp
  | bool b => simp [isCompound] at hcomp
  | num neg digits => simp [isCompound] at hcomp
  | str s => simp [isCompound] at hcomp
  | arr items =>
    rw [show serialize (Json.arr items) =
      '[' :: (serializeItems items ++ [']']) from rfl]
    rw [List.cons_append, scanBalanced_open (by decide), List.append_assoc,
      serializeItems_neutral items hwf ([']'] ++ cs) 1 (by omega)
        (acc ++ ['[']),
      show [']'] ++ cs = ']' :: cs from rfl,
      scanBalanced_close_one (by decide)]
    simp [List.append_assoc]
  | obj fields =>
    rw [show serialize (Json.obj fields) =
      openBrace :: (serializeFields fields ++ [closeBrace]) from rfl]
    rw [List.cons_append, scanBalanced_open (by decide), List.append_assoc,
      serializeFields_neutral fields hwf ([closeBrace] ++ cs) 1 (by omega)
        (acc ++ [openBrace]),
      show [closeBrace] ++ cs = closeBrace :: cs from rfl,
      scanBalanced_close_one (by decide)]
    simp [List.append_assoc]

lemma extractFirstBalanced_skip :
    ∀ (pre : List Char), (∀ c ∈ pre, isOpenBracket c = false) →
      ∀ (rest : List Char),
        extractFirstBalanced (pre ++ rest) = extractFirstBalanced rest
  | [], _, rest => rfl
  | c :: pre, h, rest => by
    have hc : isOpenBracket c = false := h c (by simp)
    rw [List.cons_append,
      show extractFirstBalanced (c :: (pre ++ rest)) =
        extractFirstBalanced (pre ++ rest) from by
          simp [extractFirstBalanced, hc]]
    exact extractFirstBalanced_skip pre (fun x hx => h x (by simp [hx])) rest

lemma firstSuccess_append {α : Type} :
    ∀ (earlier : List (List Char → Option α))
      (later : List (List Char → Option α))
      (stage : List Char → Option α) (text : List Char) (v : α),
      (∀ f ∈ earlier, f text = none) → stage text = some v →
      firstSuccess (earlier ++ stage :: later) text = some v
  | [], later, stage, text, v, _, hstage => by
    simp [firstSuccess, hstage]
  | f :: earlier, later, stage, text, v, hearly, hstage => by
    have hf : f text = none := hearly f (by simp)
    rw [List.cons_append,
      show firstSuccess (f :: (earlier ++ stage :: later)) text =
        firstSuccess (earlier ++ stage :: later) text from by
          simp [firstSuccess, hf]]
    exact firstSuccess_append earlier later stage text v
      (fun g hg => hearly g (by simp [hg])) hstage

/-- C6 (amended): Text-Repair round-trip with leading prose free of opening
brackets. For every well-formed JSON array or object serialized into a
text blob, with leading prose containing no opening bracket or brace and
arbitrary trailing prose, the structural-extraction stage returns exactly
the embedded serialized span; consequently any decoder that decodes the
exact serialization back to the value decodes exactly the embedded value;
and the layered repair stages are attempted in a fixed order with the
first successful stage's decode returned. (The claim's "arbitrary leading
prose" fails: see the counterexample where prose containing `[]` wins.) -/
theorem text_repair_extraction_roundtrip :
    (∀ (v : Json), wfJson v → isCompound v = true →
      ∀ (pre post : List Char), (∀ c ∈ pre, isOpenBracket c = false) →
        extractFirstBalanced (pre ++ (serialize v ++ post)) =
          some (serialize v)) ∧
    (∀ (v : Json) (decode : List Char → Option Json),
      wfJson v → isCompound v = true → decode (serialize v) = some v →
      ∀ (pre post : List Char), (∀ c ∈ pre, isOpenBracket c = false) →
        (extractFirstBalanced (pre ++ (serialize v ++ post))).bind decode =
          some v) ∧
    (∀ (earlier later : List (List Char → Option Json))
      (stage : List Char → Option Json) (text : List Char) (v : Json),
      (∀ f ∈ earlier, f text = none) → stage text = some v →
      firstSuccess (earlier ++ stage :: later) text = some v) := by
  have hext : ∀ (v : Json), wfJson v → isCompound v = true →
      ∀ (pre post : List Char), (∀ c ∈ pre, isOpenBracket c = false) →
        extractFirstBalanced (pre ++ (serialize v ++ post)) =
          some (serialize v) := by
    intro v hwf hcomp pre post hpre
    rw [extractFirstBalanced_skip pre hpre]
    obtain ⟨c, rest2, hser, hopen⟩ := serialize_compound_head v hcomp
    rw [hser, List.cons_append,
      show extractFirstBalanced (c :: (rest2 ++ post)) =
        scanBalanced (c :: (rest2 ++ post)) 0 false false [] from by
          simp [extractFirstBalanced, hopen],
      ← List.cons_append, ← hser,
      scanBalanced_serialize_compound v hwf hcomp post []]
    simp
  refine ⟨hext, ?_, fun earlier later => firstSuccess_append earlier later⟩
  intro v decode hwf hcomp hdec pre post hpre
  rw [hext v hwf hcomp pre post hpre]
  simp [hdec]

/-- C6 (counterexample to the claim as stated, which allows arbitrary
leading prose): when the leading prose `"[] "` itself contains a bracketed
span, the extraction stage locates that earlier balanced span and returns
`"[]"` — not the embedded serialized value `"[null]"` — so the round-trip
fails for arbitrary prose. -/
theorem text_repair_extraction_roundtrip_cex :
    wfJson (Json.arr [Json.null]) ∧
    isCompound (Json.arr [Json.null]) = true ∧
    extractFirstBalanced ("[] ".data ++
        (serialize (Json.arr [Json.null]) ++ [])) = some "[]".data ∧
    some "[]".data ≠ some (serialize (Json.arr [Json.null])) := by
  refine ⟨⟨trivial, trivial⟩, rfl, by decide, by decide⟩

/-- The embedded value of C6's witness. -/
def exampleEmbedded : Json := Json.arr [Json.str "ok".data]

/-- A repair stage that always fails, for C6's witness. -/
def exampleStageFail : List Char → Option Json := fun _ => none

/-- A repair stage that succeeds, for C6's witness. -/
def exampleStageOk : List Char → Option Json := fun _ => some Json.null

/-- Witness for C6 at concrete values: extraction recovers the serialized
array from between bracket-free prose, and the cascade skips a failing
stage and returns the first success. -/
theorem text_repair_extraction_roundtrip_witness :
    extractFirstBalanced ("Here you go: ".data ++
        (serialize exampleEmbedded ++ " Hope that helps".data)) =
      some (serialize exampleEmbedded) ∧
    firstSuccess ([exampleStageFail] ++ exampleStageOk :: []) "x".data =
      some Json.null := by
  constructor
  · apply text_repair_extraction_roundtrip.1 exampleEmbedded
    · show wfItems [Json.str "ok".data]
      refine ⟨?_, trivial⟩
      intro c hc
      rw [show "ok".data = ['o', 'k'] from rfl] at hc
      simp at hc
      rcases hc with rfl | rfl <;> exact ⟨by decide, by decide⟩
    · rfl
    · decide
  · apply text_repair_extraction_roundtrip.2.2 [exampleStageFail] []
      exampleStageOk "x".data Json.null
    · intro f hf
      simp at hf
      subst hf
      rfl
    · rfl
